import Mathlib

/-!
# Verification of the forgevsc binary provisioning and update logic

Shallow embedding of `src/extension.ts` (ForgeLSP VS Code extension).
The embedded functions mirror the TypeScript source:

* `getServerBinaryName`  — platform/arch → binary file name (lines 394–409);
* `getMetadataPath`, `readMetadata`, `writeMetadata` — the `.meta.json`
  sidecar store (lines 450–491);
* `getLatestReleaseInfo` — GitHub release lookup with its `try/catch`
  (lines 424–440), split as `releaseRequestBody` (the `try` body, which can
  throw) plus the catch-all that converts any failure to `null`;
* `shouldUpdate` — update decision (lines 506–522);
* `downloadBinary` — streaming download plus metadata write (lines 541–583);
* `startClient` — the client start flow (lines 242–364), and a small-step
  rendering `step`/`schedRun` of the same flow with the `await` suspension
  points made explicit, used to examine interleaved start requests;
* `updateLSP` — the manual-update command (lines 149–207).

Modelling conventions:
* the filesystem is an association list from path to `FileContent`; a write
  (`fs.writeFileSync` / a completed or failed `createWriteStream`) prepends,
  and lookup takes the most recent entry;
* `updated_at` timestamps are their parsed time values (`new Date(s)`
  compares dates by numeric time value), modelled as `Nat`;
* JSON parsing of the sidecar is captured by `FileContent`: a `meta` entry
  parses to that metadata, any other content fails to parse (`null`);
* user prompt answers, network responses and the download stream outcome are
  inputs (`Env` fields), consumed where the source performs the
  corresponding `await`;
* directories are tracked separately from files (`World.dirs`), matching
  `fs.mkdirSync`; file permission bits (`chmodSync`) are not modelled, as no
  examined property mentions them.
-/

/-- `os.platform()`: the three recognised values plus anything else
(`aix`, `freebsd`, …). `other s` stands for a value that is none of
`linux`, `darwin`, `win32`. -/
inductive OSPlatform where
  | linux
  | darwin
  | win32
  | other (s : String)
deriving DecidableEq, Repr

/-- `os.arch()`: the two recognised values plus anything else
(`ia32`, `arm`, …). -/
inductive Arch where
  | x64
  | arm64
  | other (s : String)
deriving DecidableEq, Repr

/-- Lines 394–409: `getServerBinaryName`.  Matches on platform, then on
architecture; every fall-through returns `null`. -/
def getServerBinaryName (platform : OSPlatform) (arch : Arch) : Option String :=
  match platform with
  | .linux =>
    match arch with
    | .x64 => some "forgevsc-linux-x86_64"
    | .arm64 => some "forgevsc-linux-aarch64"
    | .other _ => none
  | .darwin =>
    match arch with
    | .x64 => some "forgevsc-macos-x86_64"
    | .arm64 => some "forgevsc-macos-aarch64"
    | .other _ => none
  | .win32 =>
    match arch with
    | .x64 => some "forgevsc-windows-x86_64.exe"
    | _ => none
  | .other _ => none

/-- Content of one file.  `bin` is raw executable bytes; `meta` is a sidecar
whose JSON parses to the given metadata; `malformed` is a file whose content
does not parse as `BinaryMetadata` JSON. -/
inductive FileContent where
  | bin (bytes : List Nat)
  | meta (updated_at : Nat) (tag_name : String)
  | malformed (raw : List Nat)
deriving DecidableEq, Repr

/-- The filesystem: newest write first, `fsLookup` takes the first match. -/
abbrev FS := List (String × FileContent)

def fsLookup : FS → String → Option FileContent
  | [], _ => none
  | (q, c) :: rest, p => if q = p then some c else fsLookup rest p

/-- `fs.writeFileSync` / a (possibly partial) `createWriteStream` write:
overwrite by shadowing. -/
def fsWrite (fs : FS) (p : String) (c : FileContent) : FS :=
  (p, c) :: fs

/-- `fs.existsSync` restricted to files. -/
def existsSync (fs : FS) (p : String) : Bool :=
  (fsLookup fs p).isSome

/-- Lines 50–53: `BinaryMetadata`, with `updated_at` as parsed time value. -/
structure BinaryMetadata where
  updated_at : Nat
  tag_name : String
deriving DecidableEq, Repr

/-- Lines 450–452: `getMetadataPath`. -/
def getMetadataPath (binaryPath : String) : String :=
  binaryPath ++ ".meta.json"

/-- Lines 460–473: `readMetadata`.  `null` when the sidecar file is missing
or its content fails to parse (the catch around `JSON.parse`). -/
def readMetadata (fs : FS) (binaryPath : String) : Option BinaryMetadata :=
  match fsLookup fs (getMetadataPath binaryPath) with
  | none => none
  | some (.meta u t) => some ⟨u, t⟩
  | some _ => none

/-- Lines 484–491: `writeMetadata` (the write-failure catch only logs; a
successful write is modelled). -/
def writeMetadata (fs : FS) (binaryPath : String) (metadata : BinaryMetadata) : FS :=
  fsWrite fs (getMetadataPath binaryPath) (.meta metadata.updated_at metadata.tag_name)

/-- Lines 33–37: one release asset. -/
structure GitHubAsset where
  name : String
  updated_at : Nat
  browser_download_url : String
deriving DecidableEq, Repr

/-- Lines 42–45: a release. -/
structure GitHubRelease where
  tag_name : String
  assets : List GitHubAsset
deriving DecidableEq, Repr

/-- Outcome of the `axios.get` on the release endpoint: a parsed body, or a
thrown error (connection failure, or non-2xx status — axios throws on both). -/
inductive HttpResult where
  | ok (release : GitHubRelease)
  | networkError
  | httpError (status : Nat)
deriving DecidableEq, Repr

/-- The value `getLatestReleaseInfo` resolves to when not `null`. -/
structure ReleaseResult where
  updated_at : Nat
  tag_name : String
deriving DecidableEq, Repr

/-- Lines 425–435: the `try` body of `getLatestReleaseInfo`.  The `axios.get`
rethrows network failures and non-2xx statuses; on a body, `assets.find`
looks for an exact name match. -/
def releaseRequestBody (resp : HttpResult) (binaryName : String) :
    Except HttpResult (Option ReleaseResult) :=
  match resp with
  | .networkError => .error .networkError
  | .httpError s => .error (.httpError s)
  | .ok release =>
    match release.assets.find? (fun a => a.name = binaryName) with
    | some asset => .ok (some ⟨asset.updated_at, release.tag_name⟩)
    | none => .ok none

/-- Lines 424–440: `getLatestReleaseInfo` — the `try` body with the
catch-all converting every thrown error to `null` (logged, not rethrown). -/
def getLatestReleaseInfo (resp : HttpResult) (binaryName : String) :
    Option ReleaseResult :=
  match releaseRequestBody resp binaryName with
  | .error _ => none
  | .ok v => v

/-- Lines 506–522: `shouldUpdate`, instrumented with the number of release
endpoint requests it performs (the single `axios.get` inside
`getLatestReleaseInfo`), to make "the remote index is not consulted"
expressible.  The comparison `remoteDate > localDate` compares the parsed
time values. -/
def shouldUpdateCore (fs : FS) (resp : HttpResult) (binaryPath binaryName : String) :
    Bool × Nat :=
  match readMetadata fs binaryPath with
  | none => (false, 0)
  | some localMetadata =>
    match getLatestReleaseInfo resp binaryName with
    | none => (false, 1)
    | some remoteInfo => (decide (localMetadata.updated_at < remoteInfo.updated_at), 1)

/-- The boolean `shouldUpdate` resolves to. -/
def shouldUpdate (fs : FS) (resp : HttpResult) (binaryPath binaryName : String) : Bool :=
  (shouldUpdateCore fs resp binaryPath binaryName).1

/-- Outcome of the download in `downloadBinary` (lines 550–566):
`reqError` — the initial `axios` GET rejects, before `createWriteStream`
opens the destination; `streamError` — the write stream errors after the
destination has been truncated and `partial` bytes written; `ok` — the full
body is written. -/
inductive DownloadOutcome where
  | reqError
  | streamError (part : List Nat)
  | ok (bytes : List Nat)
deriving DecidableEq, Repr

/-- Failure reasons `downloadBinary` can reject with. -/
inductive DlError where
  | requestError
  | downloadError
deriving DecidableEq, Repr

/-- Lines 541–583: `downloadBinary`.  On `reqError` the promise rejects with
the destination untouched.  On `streamError` the `createWriteStream` has
already replaced the destination's content with the partial bytes and the
promise rejects.  On `ok`, the full bytes are at the destination and the
close handler fetches release info for `filename`; when that yields a value
it is written to the sidecar, otherwise the sidecar is left as it was; the
promise resolves either way. -/
def downloadBinary (stream : DownloadOutcome) (resp : HttpResult)
    (filename destPath : String) (fs : FS) : FS × Except DlError Unit :=
  match stream with
  | .reqError => (fs, .error .requestError)
  | .streamError part => (fsWrite fs destPath (.bin part), .error .downloadError)
  | .ok bytes =>
    let fs1 := fsWrite fs destPath (.bin bytes)
    match getLatestReleaseInfo resp filename with
    | some releaseInfo =>
      (writeMetadata fs1 destPath ⟨releaseInfo.updated_at, releaseInfo.tag_name⟩, .ok ())
    | none => (fs1, .ok ())

/-- The global `client` variable: unset, set but stopped, or running.  The
`id` identifies the spawned process, so that "process identity unchanged"
and "a second process was spawned" are expressible. -/
inductive ClientState where
  | noClient
  | stopped (id : Nat)
  | running (id : Nat)
deriving DecidableEq, Repr

/-- `client && client.isRunning()`. -/
def isRunning : ClientState → Bool
  | .running _ => true
  | _ => false

/-- `await client.stop()` guarded by `client && client.isRunning()`. -/
def stopIfRunning : ClientState → ClientState
  | .running id => .stopped id
  | s => s

/-- The mutable world the extension acts on: files, directories, the
persisted `customBinaryPath` global state, and the client slot. -/
structure World where
  fs : FS
  dirs : List String
  customBinaryPath : Option String
  client : ClientState
deriving DecidableEq, Repr

/-- Inputs consumed during one `startClient` / `updateLSP` run: the host
platform, the storage path, the user's prompt answers, the release-endpoint
responses (one for the `shouldUpdate` check, one for the metadata fetch
inside `downloadBinary`), the download stream outcome, and the id the
spawned process would get. -/
structure Env where
  platform : OSPlatform
  arch : Arch
  storagePath : String
  downloadChoice : Bool
  updateChoice : Bool
  releaseResp : HttpResult
  installResp : HttpResult
  stream : DownloadOutcome
  newPid : Nat
deriving DecidableEq, Repr

/-- Observable user-facing effects. -/
inductive Ev where
  | errorMsg (s : String)
  | infoMsg (s : String)
  | spawn (path : String) (id : Nat)
deriving DecidableEq, Repr

def unsupportedMsg : String := "ForgeLSP: Unsupported platform or architecture."
def downloadFailedMsg : String := "ForgeLSP: Failed to download binary."
def downloadedMsg : String := "ForgeLSP binary downloaded successfully."
def updateFailedMsg : String := "ForgeLSP: Failed to update binary."
def updatedMsg : String := "ForgeLSP binary updated successfully."
def skipCustomMsg : String := "ForgeLSP: Using custom binary; update skipped."
def restartingMsg : String := "ForgeLSP binary updated successfully. Restarting LSP..."

/-- `path.join`. -/
def pathJoin (a b : String) : String := a ++ "/" ++ b

/-- Lines 256–258: `mkdirSync(storagePath, {recursive: true})` when the
directory is missing. -/
def mkdirIfMissing (w : World) (p : String) : World :=
  if p ∈ w.dirs then w else { w with dirs := p :: w.dirs }

/-- Lines 261–268 (identical in `updateLSP`, lines 161–168): resolve the
server binary path.  `customPath && fs.existsSync(customPath)`: the stored
value must be set, truthy (non-empty string) and name an existing file;
otherwise the default storage location keyed by the binary name is used. -/
def resolveServerPath (fs : FS) (custom : Option String)
    (storagePath serverBinaryName : String) : String :=
  match custom with
  | some customPath =>
    if customPath ≠ "" ∧ existsSync fs customPath then customPath
    else pathJoin storagePath serverBinaryName
  | none => pathJoin storagePath serverBinaryName

/-- Lines 242–364: `startClient`, run atomically (one request, no
interleaving; the step model below makes the `await` points explicit).

Order as in the source: duplicate-instance guard; platform resolution
(error and return when unsupported); ensure the storage directory; resolve
the server path; if the binary is missing, prompt to download — on accept
run `downloadBinary` (a rejection shows an error and returns), on decline
return; if the binary is present, run `shouldUpdate` and, when it reports an
update, prompt — on accept run `downloadBinary`, swallowing a rejection
(continue with whatever is on disk); finally spawn the client. -/
def startClient (env : Env) (w : World) : World × List Ev :=
  if isRunning w.client then (w, [])
  else
    match getServerBinaryName env.platform env.arch with
    | none => (w, [.errorMsg unsupportedMsg])
    | some serverBinaryName =>
      let w1 := mkdirIfMissing w env.storagePath
      let serverPath := resolveServerPath w1.fs w1.customBinaryPath env.storagePath serverBinaryName
      if !existsSync w1.fs serverPath then
        if env.downloadChoice then
          match downloadBinary env.stream env.installResp serverBinaryName serverPath w1.fs with
          | (fs2, .ok _) =>
            ({ w1 with fs := fs2, client := .running env.newPid },
             [.infoMsg downloadedMsg, .spawn serverPath env.newPid])
          | (fs2, .error _) =>
            ({ w1 with fs := fs2 }, [.errorMsg downloadFailedMsg])
        else (w1, [])
      else
        let updateAvailable := shouldUpdate w1.fs env.releaseResp serverPath serverBinaryName
        let fsEvs :=
          if updateAvailable then
            if env.updateChoice then
              match downloadBinary env.stream env.installResp serverBinaryName serverPath w1.fs with
              | (fs2, .ok _) => (fs2, [.infoMsg updatedMsg])
              | (fs2, .error _) => (fs2, [.errorMsg updateFailedMsg])
            else (w1.fs, [])
          else (w1.fs, [])
        ({ w1 with fs := fsEvs.1, client := .running env.newPid },
         fsEvs.2 ++ [.spawn serverPath env.newPid])

/-- Lines 149–207: the `forgevsc.updateLSP` command.

Order as in the source: platform resolution (error and return when
unsupported); ensure the storage directory; resolve the server path (the
custom-binary condition is evaluated, and nothing changes the filesystem
before its re-evaluation at line 178, so it is computed once here); stop a
running client; with a usable custom binary, skip the download and report
so; otherwise run `downloadBinary` to the resolved path.  On success report
and restart via `startClient`; a rejection is caught, reported, and — the
client having been stopped — `startClient` is attempted anyway. -/
def updateLSP (env : Env) (w : World) : World × List Ev :=
  match getServerBinaryName env.platform env.arch with
  | none => (w, [.errorMsg unsupportedMsg])
  | some serverBinaryName =>
    let w1 := mkdirIfMissing w env.storagePath
    let useCustom : Bool :=
      match w1.customBinaryPath with
      | some customPath => customPath ≠ "" ∧ existsSync w1.fs customPath
      | none => false
    let serverPath := resolveServerPath w1.fs w1.customBinaryPath env.storagePath serverBinaryName
    let w2 := { w1 with client := stopIfRunning w1.client }
    if useCustom then
      let res := startClient env w2
      (res.1, [.infoMsg skipCustomMsg, .infoMsg restartingMsg] ++ res.2)
    else
      match downloadBinary env.stream env.installResp serverBinaryName serverPath w2.fs with
      | (fs2, .ok _) =>
        let res := startClient env { w2 with fs := fs2 }
        (res.1, [.infoMsg restartingMsg] ++ res.2)
      | (fs2, .error _) =>
        let res := startClient env { w2 with fs := fs2 }
        (res.1, [.errorMsg updateFailedMsg] ++ res.2)

/-- Progress of one in-flight `startClient` call, cut at its `await`
suspension points (cooperative single-threaded interleaving: other tasks may
run only while this one is suspended).

`entry` — about to run the guard at line 243; `atDownloadPrompt` — suspended
in the `await showInformationMessage` of line 272; `atFirstDownload` —
suspended in the `await downloadBinary` of line 280; `atUpdateCheck` —
suspended in the `await shouldUpdate` of line 293 (its network fetch);
`atUpdatePrompt` — suspended at line 295; `atUpdateDownload` — suspended in
the `await downloadBinary` of line 304; `finished` — returned.  Awaited
compound operations (a whole download, the spawn) are taken as single steps:
this is coarser than the real interleaving, so every trace of this model is
a possible trace of the source. -/
inductive Phase where
  | entry
  | atDownloadPrompt (serverBinaryName serverPath : String)
  | atFirstDownload (serverBinaryName serverPath : String)
  | atUpdateCheck (serverBinaryName serverPath : String)
  | atUpdatePrompt (serverBinaryName serverPath : String)
  | atUpdateDownload (serverBinaryName serverPath : String)
  | finished
deriving DecidableEq, Repr

/-- One step of an in-flight `startClient`: runs from the current suspension
point to the next, following lines 242–364 exactly as `startClient` above. -/
def step (env : Env) (ph : Phase) (w : World) : Phase × World × List Ev :=
  match ph with
  | .entry =>
    if isRunning w.client then (.finished, w, [])
    else
      match getServerBinaryName env.platform env.arch with
      | none => (.finished, w, [.errorMsg unsupportedMsg])
      | some serverBinaryName =>
        let w1 := mkdirIfMissing w env.storagePath
        let serverPath := resolveServerPath w1.fs w1.customBinaryPath env.storagePath serverBinaryName
        if !existsSync w1.fs serverPath then
          (.atDownloadPrompt serverBinaryName serverPath, w1, [])
        else
          (.atUpdateCheck serverBinaryName serverPath, w1, [])
  | .atDownloadPrompt serverBinaryName serverPath =>
    if env.downloadChoice then (.atFirstDownload serverBinaryName serverPath, w, [])
    else (.finished, w, [])
  | .atFirstDownload serverBinaryName serverPath =>
    (match downloadBinary env.stream env.installResp serverBinaryName serverPath w.fs with
     | (fs2, .ok _) =>
       (.finished, { w with fs := fs2, client := .running env.newPid },
        [.infoMsg downloadedMsg, .spawn serverPath env.newPid])
     | (fs2, .error _) => (.finished, { w with fs := fs2 }, [.errorMsg downloadFailedMsg]))
  | .atUpdateCheck serverBinaryName serverPath =>
    if shouldUpdate w.fs env.releaseResp serverPath serverBinaryName then
      (.atUpdatePrompt serverBinaryName serverPath, w, [])
    else
      (.finished, { w with client := .running env.newPid }, [.spawn serverPath env.newPid])
  | .atUpdatePrompt serverBinaryName serverPath =>
    if env.updateChoice then (.atUpdateDownload serverBinaryName serverPath, w, [])
    else
      (.finished, { w with client := .running env.newPid }, [.spawn serverPath env.newPid])
  | .atUpdateDownload serverBinaryName serverPath =>
    (match downloadBinary env.stream env.installResp serverBinaryName serverPath w.fs with
     | (fs2, .ok _) =>
       (.finished, { w with fs := fs2, client := .running env.newPid },
        [.infoMsg updatedMsg, .spawn serverPath env.newPid])
     | (fs2, .error _) =>
       (.finished, { w with fs := fs2, client := .running env.newPid },
        [.errorMsg updateFailedMsg, .spawn serverPath env.newPid]))
  | .finished => (.finished, w, [])

/-- Run the step of task `i` on a pool of in-flight `startClient` tasks. -/
def stepTask (envs : List Env) (phases : List Phase) (i : Nat) (w : World) :
    List Phase × World × List Ev :=
  match envs.get? i, phases.get? i with
  | some env, some ph =>
    let r := step env ph w
    (phases.set i r.1, r.2.1, r.2.2)
  | _, _ => (phases, w, [])

/-- Run a cooperative schedule (a list of task indices) over a pool of
in-flight `startClient` tasks, returning final phases, world, and the
events in emission order. -/
def schedRun (envs : List Env) : List Nat → List Phase → World →
    List Phase × World × List Ev
  | [], phases, w => (phases, w, [])
  | i :: rest, phases, w =>
    let r := stepTask envs phases i w
    let r2 := schedRun envs rest r.1 r.2.1
    (r2.1, r2.2.1, r.2.2 ++ r2.2.2)

/-- The support matrix stated by the specification:
{linux, macOS} × {x86_64, arm64} ∪ {windows} × {x86_64}. -/
def specSupportedMatrix (p : OSPlatform) (a : Arch) : Prop :=
  ((p = .linux ∨ p = .darwin) ∧ (a = .x64 ∨ a = .arm64)) ∨ (p = .win32 ∧ a = .x64)

/-- A fresh environment: no files, no directories, no override, no client. -/
def freshWorld : World := ⟨[], [], none, .noClient⟩

/-- First of two concurrent start requests on a fresh Linux x64 host: user
accepts the download, the stream delivers `[1]`, the spawned process would
get id 1. -/
def twoStartEnvA : Env :=
  ⟨.linux, .x64, "s", true, false, .networkError, .networkError, .ok [1], 1⟩

/-- Second concurrent start request: stream delivers `[2]`, id 2. -/
def twoStartEnvB : Env :=
  ⟨.linux, .x64, "s", true, false, .networkError, .networkError, .ok [2], 2⟩

/-- A release whose asset list carries the Linux x64 binary name with
timestamp 5. -/
def newerRelease : GitHubRelease := ⟨"v1", [⟨"forgevsc-linux-x86_64", 5, "u"⟩]⟩

/-- World for the manual-update scenario: override set to an existing binary
`c` whose sidecar records timestamp 0, storage directory present, client
running. -/
def overrideUpdateWorld : World :=
  ⟨[("c", .bin [1]), ("c.meta.json", .meta 0 "v0")], ["s"], some "c", .running 1⟩

/-- Environment for the manual-update scenario: Linux x64, the release
endpoint reports `newerRelease`, the user accepts the update prompt, the
download stream delivers `[9, 9]`. -/
def overrideUpdateEnv : Env :=
  ⟨.linux, .x64, "s", false, true, .ok newerRelease, .networkError, .ok [9, 9], 2⟩

/-! ## Helper lemmas -/

theorem fsLookup_fsWrite_self (fs : FS) (p : String) (c : FileContent) :
    fsLookup (fsWrite fs p c) p = some c := by
  simp [fsWrite, fsLookup]

theorem fsLookup_fsWrite_ne (fs : FS) (p q : String) (c : FileContent) (h : p ≠ q) :
    fsLookup (fsWrite fs p c) q = fsLookup fs q := by
  simp [fsWrite, fsLookup, h]

theorem getMetadataPath_ne (p : String) : getMetadataPath p ≠ p := by
  intro h
  have hlen : (p ++ ".meta.json").length = p.length := congrArg String.length h
  rw [String.length_append] at hlen
  have h10 : ".meta.json".length = 10 := rfl
  omega

theorem readMetadata_writeMetadata (fs : FS) (p : String) (m : BinaryMetadata) :
    readMetadata (writeMetadata fs p m) p = some m := by
  simp [readMetadata, writeMetadata, fsWrite, fsLookup]

theorem mkdirIfMissing_fs (w : World) (p : String) : (mkdirIfMissing w p).fs = w.fs := by
  unfold mkdirIfMissing; split <;> rfl

theorem mkdirIfMissing_client (w : World) (p : String) :
    (mkdirIfMissing w p).client = w.client := by
  unfold mkdirIfMissing; split <;> rfl

theorem mkdirIfMissing_customBinaryPath (w : World) (p : String) :
    (mkdirIfMissing w p).customBinaryPath = w.customBinaryPath := by
  unfold mkdirIfMissing; split <;> rfl

theorem isRunning_stopIfRunning (s : ClientState) :
    isRunning (stopIfRunning s) = false := by
  cases s <;> rfl

theorem shouldUpdate_of_no_metadata (fs : FS) (resp : HttpResult) (p n : String)
    (h : readMetadata fs p = none) : shouldUpdate fs resp p n = false := by
  unfold shouldUpdate shouldUpdateCore
  rw [h]

/-! ## Claim theorems -/

/-- Claim C2 (confirmed): when local metadata is present and the remote
release info resolves, `shouldUpdate` returns true exactly when the remote
`updated_at` is strictly greater than the local one; in particular equal
timestamps yield false. -/
theorem C2_shouldUpdate_strict (fs : FS) (resp : HttpResult) (p n : String)
    (lm : BinaryMetadata) (ri : ReleaseResult)
    (hl : readMetadata fs p = some lm)
    (hr : getLatestReleaseInfo resp n = some ri) :
    (shouldUpdate fs resp p n = true ↔ lm.updated_at < ri.updated_at)
    ∧ (ri.updated_at = lm.updated_at → shouldUpdate fs resp p n = false) := by
  unfold shouldUpdate shouldUpdateCore
  rw [hl, hr]
  refine ⟨by simp, fun he => by simp [he]⟩

/-- Witness for C2: sidecar timestamp 1 present, remote asset timestamp also
1 — equal timestamps are not an update. -/
theorem C2_witness :
    shouldUpdate [("b.meta.json", .meta 1 "v1")] (.ok ⟨"v2", [⟨"b", 1, "u"⟩]⟩) "b" "b" = false :=
  (C2_shouldUpdate_strict [("b.meta.json", .meta 1 "v1")] (.ok ⟨"v2", [⟨"b", 1, "u"⟩]⟩)
    "b" "b" ⟨1, "v1"⟩ ⟨1, "v2"⟩ (by decide) (by decide)).2 rfl

/-- Claim C3 (confirmed): with no readable local metadata, `shouldUpdate`
returns false for every remote state and performs zero release-endpoint
requests. -/
theorem C3_shouldUpdate_absent_metadata (fs : FS) (resp : HttpResult) (p n : String)
    (h : readMetadata fs p = none) :
    shouldUpdateCore fs resp p n = (false, 0) := by
  unfold shouldUpdateCore
  rw [h]

/-- Witness for C3: empty filesystem, remote reporting a newer matching
asset — still false, and the remote index was not consulted. -/
theorem C3_witness :
    shouldUpdateCore [] (.ok ⟨"v9", [⟨"b", 99, "u"⟩]⟩) "b" "b" = (false, 0) :=
  C3_shouldUpdate_absent_metadata [] (.ok ⟨"v9", [⟨"b", 99, "u"⟩]⟩) "b" "b" (by decide)

/-- Claim C8 (confirmed): `getLatestReleaseInfo` returns `null` on a network
failure, on a non-2xx status, and when no asset name matches exactly; every
thrown error is caught at its boundary (converted to `null`); on an exact
asset match it returns the asset's `updated_at` with the release's
`tag_name`. -/
theorem C8_getLatestReleaseInfo_behaviour (n : String) :
    getLatestReleaseInfo .networkError n = none
    ∧ (∀ s : Nat, getLatestReleaseInfo (.httpError s) n = none)
    ∧ (∀ r : GitHubRelease, r.assets.find? (fun x => x.name = n) = none →
        getLatestReleaseInfo (.ok r) n = none)
    ∧ (∀ (r : GitHubRelease) (a : GitHubAsset),
        r.assets.find? (fun x => x.name = n) = some a →
        getLatestReleaseInfo (.ok r) n = some ⟨a.updated_at, r.tag_name⟩)
    ∧ (∀ (resp e : HttpResult), releaseRequestBody resp n = .error e →
        getLatestReleaseInfo resp n = none) := by
  refine ⟨rfl, fun _ => rfl, ?_, ?_, ?_⟩
  · intro r h
    simp [getLatestReleaseInfo, releaseRequestBody, h]
  · intro r a h
    simp [getLatestReleaseInfo, releaseRequestBody, h]
  · intro resp e h
    unfold getLatestReleaseInfo
    rw [h]

/-- Witness for C8: no matching asset yields `null`; a matching asset yields
its timestamp and the release tag; network failure yields `null`. -/
theorem C8_witness :
    getLatestReleaseInfo (.ok ⟨"v1", [⟨"other", 3, "u"⟩]⟩) "b" = none
    ∧ getLatestReleaseInfo (.ok ⟨"v1", [⟨"b", 3, "u"⟩]⟩) "b" = some ⟨3, "v1"⟩
    ∧ getLatestReleaseInfo .networkError "b" = none :=
  ⟨(C8_getLatestReleaseInfo_behaviour "b").2.2.1 ⟨"v1", [⟨"other", 3, "u"⟩]⟩ (by decide),
   (C8_getLatestReleaseInfo_behaviour "b").2.2.2.1 ⟨"v1", [⟨"b", 3, "u"⟩]⟩ ⟨"b", 3, "u"⟩ (by decide),
   (C8_getLatestReleaseInfo_behaviour "b").1⟩

/-- Claim C4 (confirmed): `getServerBinaryName` yields an identifier exactly
for the pairs in {linux, macOS} × {x86_64, arm64} ∪ {windows} × {x86_64}
(with the listed identifiers), and on an unsupported pair a start request
reports the condition and returns with the world unchanged — in particular
it never proceeds to the starting flow (no prompt, no download, no spawn). -/
theorem C4_platform_matrix :
    (∀ (p : OSPlatform) (a : Arch),
        (getServerBinaryName p a).isSome ↔ specSupportedMatrix p a)
    ∧ getServerBinaryName .linux .x64 = some "forgevsc-linux-x86_64"
    ∧ getServerBinaryName .linux .arm64 = some "forgevsc-linux-aarch64"
    ∧ getServerBinaryName .darwin .x64 = some "forgevsc-macos-x86_64"
    ∧ getServerBinaryName .darwin .arm64 = some "forgevsc-macos-aarch64"
    ∧ getServerBinaryName .win32 .x64 = some "forgevsc-windows-x86_64.exe"
    ∧ (∀ (env : Env) (w : World), isRunning w.client = false →
        getServerBinaryName env.platform env.arch = none →
        startClient env w = (w, [.errorMsg unsupportedMsg])) := by
  refine ⟨?_, rfl, rfl, rfl, rfl, rfl, ?_⟩
  · intro p a
    cases p <;> cases a <;> simp [getServerBinaryName, specSupportedMatrix]
  · intro env w hrun hname
    unfold startClient
    rw [hrun, hname]
    rfl

/-- Witness for C4: FreeBSD x64 is outside the matrix, and a start request
on it only reports the unsupported condition. -/
theorem C4_witness :
    ¬ specSupportedMatrix (.other "freebsd") .x64
    ∧ startClient ⟨.other "freebsd", .x64, "s", false, false, .networkError,
          .networkError, .reqError, 1⟩ freshWorld
        = (freshWorld, [.errorMsg unsupportedMsg]) :=
  ⟨fun h => absurd ((C4_platform_matrix.1 (.other "freebsd") .x64).2 h) (by decide),
   C4_platform_matrix.2.2.2.2.2.2
     ⟨.other "freebsd", .x64, "s", false, false, .networkError, .networkError, .reqError, 1⟩
     freshWorld rfl rfl⟩

/-- Claim C5, amended (corrected): a start request while the client is
already running is a complete no-op — the world (including the identity of
the running process) is unchanged and nothing is spawned.  The unamended
claim also covered a request arriving while another start is still in
flight; `C5_counterexample` shows the code does not reject that case. -/
theorem C5_start_noop_when_running (env : Env) (w : World) (id : Nat)
    (h : w.client = .running id) :
    startClient env w = (w, []) := by
  unfold startClient
  rw [h]
  rfl

/-- Witness for C5: a running world is left exactly as it is. -/
theorem C5_witness :
    startClient ⟨.linux, .x64, "s", true, true, .networkError, .networkError, .ok [1], 9⟩
        ⟨[], [], none, .running 7⟩
      = (⟨[], [], none, .running 7⟩, []) :=
  C5_start_noop_when_running
    ⟨.linux, .x64, "s", true, true, .networkError, .networkError, .ok [1], 9⟩
    ⟨[], [], none, .running 7⟩ 7 rfl

/-- Counterexample to C5 as stated: on a fresh world, task A's start request
suspends at the download prompt (it is `Starting`); a second start request B
arriving at that moment passes the `isRunning` guard instead of being
rejected, and after both prompts are accepted the schedule spawns two
processes (ids 1 and 2) — the supervised-process identity changes and a
second process is spawned, refuting the at-most-one-instance no-op for the
`Starting` case. -/
theorem C5_counterexample :
    (schedRun [twoStartEnvA, twoStartEnvB] [0] [.entry, .entry] freshWorld).1
      = [.atDownloadPrompt "forgevsc-linux-x86_64" "s/forgevsc-linux-x86_64", .entry]
    ∧ (schedRun [twoStartEnvA, twoStartEnvB] [0, 1] [.entry, .entry] freshWorld).1
      = [.atDownloadPrompt "forgevsc-linux-x86_64" "s/forgevsc-linux-x86_64",
         .atDownloadPrompt "forgevsc-linux-x86_64" "s/forgevsc-linux-x86_64"]
    ∧ (schedRun [twoStartEnvA, twoStartEnvB] [0, 1, 0, 0, 1, 1] [.entry, .entry] freshWorld).2.2
      = [.infoMsg downloadedMsg, .spawn "s/forgevsc-linux-x86_64" 1,
         .infoMsg downloadedMsg, .spawn "s/forgevsc-linux-x86_64" 2]
    ∧ (schedRun [twoStartEnvA, twoStartEnvB] [0, 1, 0, 0, 1, 1] [.entry, .entry] freshWorld).2.1.client
      = .running 2 := by
  decide

/-- Counterexample to C1 as stated: destination `p/b` holds bytes `[1,2,3]`
with its sidecar present; the download stream fails after writing the single
byte `[9]`.  The install rejects with the download error, but the
pre-existing binary is NOT byte-for-byte unchanged: `createWriteStream`
opened (truncated) the destination and the partial byte is what remains. -/
theorem C1_counterexample :
    (downloadBinary (.streamError [9]) .networkError "b" "p/b"
        [("p/b", .bin [1, 2, 3]), ("p/b.meta.json", .meta 5 "v1")]).2
      = .error .downloadError
    ∧ fsLookup (downloadBinary (.streamError [9]) .networkError "b" "p/b"
        [("p/b", .bin [1, 2, 3]), ("p/b.meta.json", .meta 5 "v1")]).1 "p/b"
      = some (.bin [9])
    ∧ fsLookup [(("p/b" : String), FileContent.bin [1, 2, 3]),
        ("p/b.meta.json", .meta 5 "v1")] "p/b" = some (.bin [1, 2, 3]) := by
  exact ⟨rfl, rfl, rfl⟩

/-- Claim C1, amended (corrected): when the download stream fails
mid-transfer, `downloadBinary` propagates the download failure and the
pre-existing metadata sidecar is byte-for-byte unchanged, but the
destination binary file is left holding the partially written bytes (the
pre-existing binary at the destination is overwritten, not preserved). -/
theorem C1_stream_failure_effect (fs : FS) (resp : HttpResult)
    (filename destPath : String) (part : List Nat) :
    downloadBinary (.streamError part) resp filename destPath fs
      = (fsWrite fs destPath (.bin part), .error .downloadError)
    ∧ fsLookup (downloadBinary (.streamError part) resp filename destPath fs).1
        (getMetadataPath destPath)
      = fsLookup fs (getMetadataPath destPath)
    ∧ fsLookup (downloadBinary (.streamError part) resp filename destPath fs).1 destPath
      = some (.bin part) := by
  refine ⟨rfl, ?_, ?_⟩
  · exact fsLookup_fsWrite_ne fs destPath (getMetadataPath destPath) (.bin part)
      fun h => getMetadataPath_ne destPath h.symm
  · exact fsLookup_fsWrite_self fs destPath (.bin part)

/-- Claim C7 (confirmed): after a download whose stream completes, if the
post-download release-info fetch resolves (matching asset `a` in release
`rel`), the install succeeds and reading the sidecar returns metadata whose
`tag_name` is the fetched release's `tag_name` (and whose `updated_at` is
the matched asset's); if that secondary fetch is `null`, the install still
resolves successfully and the sidecar is byte-for-byte whatever it was
before (stale or absent). -/
theorem C7_metadata_after_install :
    (∀ (fs : FS) (bytes : List Nat) (rel : GitHubRelease) (a : GitHubAsset)
        (filename destPath : String),
        rel.assets.find? (fun x => x.name = filename) = some a →
        (downloadBinary (.ok bytes) (.ok rel) filename destPath fs).2 = .ok ()
        ∧ readMetadata (downloadBinary (.ok bytes) (.ok rel) filename destPath fs).1 destPath
          = some ⟨a.updated_at, rel.tag_name⟩)
    ∧ (∀ (fs : FS) (bytes : List Nat) (resp : HttpResult) (filename destPath : String),
        getLatestReleaseInfo resp filename = none →
        (downloadBinary (.ok bytes) resp filename destPath fs).2 = .ok ()
        ∧ fsLookup (downloadBinary (.ok bytes) resp filename destPath fs).1
            (getMetadataPath destPath)
          = fsLookup fs (getMetadataPath destPath)) := by
  constructor
  · intro fs bytes rel a filename destPath hfind
    have hrel : getLatestReleaseInfo (.ok rel) filename = some ⟨a.updated_at, rel.tag_name⟩ := by
      simp [getLatestReleaseInfo, releaseRequestBody, hfind]
    unfold downloadBinary
    rw [hrel]
    exact ⟨rfl, readMetadata_writeMetadata _ destPath ⟨a.updated_at, rel.tag_name⟩⟩
  · intro fs bytes resp filename destPath hnone
    unfold downloadBinary
    rw [hnone]
    refine ⟨rfl, ?_⟩
    exact fsLookup_fsWrite_ne fs destPath (getMetadataPath destPath) (.bin bytes)
      fun h => getMetadataPath_ne destPath h.symm

/-- Witness for C7: installing to `p/b` with a matching asset (timestamp 9,
tag `v2`) writes a sidecar that reads back with that tag; with an
unreachable release endpoint the install still succeeds and the absent
sidecar stays absent. -/
theorem C7_witness :
    ((downloadBinary (.ok [7]) (.ok ⟨"v2", [⟨"b", 9, "u"⟩]⟩) "b" "p/b" []).2 = .ok ()
      ∧ readMetadata (downloadBinary (.ok [7]) (.ok ⟨"v2", [⟨"b", 9, "u"⟩]⟩) "b" "p/b" []).1 "p/b"
        = some ⟨9, "v2"⟩)
    ∧ (downloadBinary (.ok [7]) .networkError "b" "p/b" []).2 = .ok ()
    ∧ fsLookup (downloadBinary (.ok [7]) .networkError "b" "p/b" []).1
        (getMetadataPath "p/b") = fsLookup ([] : FS) (getMetadataPath "p/b") :=
  ⟨C7_metadata_after_install.1 [] [7] ⟨"v2", [⟨"b", 9, "u"⟩]⟩ ⟨"b", 9, "u"⟩ "b" "p/b" (by decide),
   C7_metadata_after_install.2 [] [7] .networkError "b" "p/b" rfl⟩

/-- Every spawn emitted by a start request uses the path resolved by
`resolveServerPath` from the world the request started with. -/
theorem startClient_spawn_path (env : Env) (w : World) (sp : String) (id : Nat)
    (hmem : Ev.spawn sp id ∈ (startClient env w).2) :
    ∃ nm, getServerBinaryName env.platform env.arch = some nm
      ∧ sp = resolveServerPath w.fs w.customBinaryPath env.storagePath nm := by
  unfold startClient at hmem
  split at hmem
  · simp at hmem
  · split at hmem
    · simp at hmem
    · next nm heq =>
      refine ⟨nm, heq, ?_⟩
      simp only [mkdirIfMissing_fs, mkdirIfMissing_customBinaryPath] at hmem
      split at hmem
      · split at hmem
        · split at hmem
          · simp at hmem
            exact hmem.1
          · simp at hmem
        · simp at hmem
      · split at hmem
        · split at hmem
          · split at hmem
            · simp at hmem
              exact hmem.1
            · simp at hmem
              exact hmem.1
          · simp at hmem
            exact hmem.1
        · simp at hmem
          exact hmem.1

/-- Claim C6 (confirmed): when the persisted override names an existing,
non-empty path it is the resolved binary path — unconditionally on what sits
at the default location — and any process a start request spawns in that
situation runs the override path; with no override, or an override that does
not point to an existing file, the resolved path is the default
storage-directory location keyed by the binary name. -/
theorem C6_override_resolution :
    (∀ (fs : FS) (storagePath name c : String), c ≠ "" → existsSync fs c = true →
        resolveServerPath fs (some c) storagePath name = c)
    ∧ (∀ (fs : FS) (storagePath name c : String), existsSync fs c = false →
        resolveServerPath fs (some c) storagePath name = pathJoin storagePath name)
    ∧ (∀ (fs : FS) (storagePath name : String),
        resolveServerPath fs none storagePath name = pathJoin storagePath name)
    ∧ (∀ (env : Env) (w : World) (c sp : String) (id : Nat),
        w.customBinaryPath = some c → c ≠ "" → existsSync w.fs c = true →
        Ev.spawn sp id ∈ (startClient env w).2 → sp = c) := by
  refine ⟨?_, ?_, ?_, ?_⟩
  · intro fs storagePath name c hc hex
    simp [resolveServerPath, hc, hex]
  · intro fs storagePath name c hex
    simp [resolveServerPath, hex]
  · intro fs storagePath name
    rfl
  · intro env w c sp id hcustom hc hex hmem
    obtain ⟨nm, -, hsp⟩ := startClient_spawn_path env w sp id hmem
    rw [hsp, hcustom]
    simp [resolveServerPath, hc, hex]

/-- Witness for C6: override `c` exists while a different binary sits at the
default location `s/b` — the override wins; a dangling or absent override
falls back to `s/b`. -/
theorem C6_witness :
    resolveServerPath [("c", .bin [1]), ("s/b", .bin [2])] (some "c") "s" "b" = "c"
    ∧ resolveServerPath [("s/b", .bin [2])] (some "gone") "s" "b" = pathJoin "s" "b"
    ∧ resolveServerPath [("s/b", .bin [2])] none "s" "b" = pathJoin "s" "b" :=
  ⟨C6_override_resolution.1 [("c", .bin [1]), ("s/b", .bin [2])] "s" "b" "c" (by decide) rfl,
   C6_override_resolution.2.1 [("s/b", .bin [2])] "s" "b" "gone" rfl,
   C6_override_resolution.2.2.1 [("s/b", .bin [2])] "s" "b"⟩

/-- Claim C9 (confirmed): in a fresh environment — supported platform, no
client, no override, no binary at the default location — a start request the
user answers with Cancel ends with no client (NotRunning), the files on disk
unchanged, and no user-visible action beyond the prompt (no download, no
spawn).  (The storage directory itself may be created before the prompt;
that is a directory, not a file.) -/
theorem C9_decline_leaves_fresh (env : Env) (w : World) (name : String)
    (hclient : w.client = .noClient)
    (hname : getServerBinaryName env.platform env.arch = some name)
    (hcustom : w.customBinaryPath = none)
    (hmissing : existsSync w.fs (pathJoin env.storagePath name) = false)
    (hdecline : env.downloadChoice = false) :
    (startClient env w).1.fs = w.fs
    ∧ (startClient env w).1.client = .noClient
    ∧ (startClient env w).2 = [] := by
  have hrun : isRunning w.client = false := by rw [hclient]; rfl
  have hstart : startClient env w = (mkdirIfMissing w env.storagePath, []) := by
    unfold startClient
    rw [hrun, hname]
    simp only [mkdirIfMissing_fs, mkdirIfMissing_customBinaryPath, hcustom]
    simp [resolveServerPath, hmissing, hdecline]
  rw [hstart]
  exact ⟨mkdirIfMissing_fs w env.storagePath,
    by rw [mkdirIfMissing_client, hclient], rfl⟩

/-- Witness for C9: fresh world, Linux x64, decline — nothing on disk, no
client, no events. -/
theorem C9_witness :
    (startClient ⟨.linux, .x64, "s", false, true, .ok newerRelease,
        .ok newerRelease, .ok [1], 4⟩ freshWorld).1.fs = freshWorld.fs
    ∧ (startClient ⟨.linux, .x64, "s", false, true, .ok newerRelease,
        .ok newerRelease, .ok [1], 4⟩ freshWorld).1.client = .noClient
    ∧ (startClient ⟨.linux, .x64, "s", false, true, .ok newerRelease,
        .ok newerRelease, .ok [1], 4⟩ freshWorld).2 = [] :=
  C9_decline_leaves_fresh
    ⟨.linux, .x64, "s", false, true, .ok newerRelease, .ok newerRelease, .ok [1], 4⟩
    freshWorld "forgevsc-linux-x86_64" rfl rfl rfl rfl rfl

/-- Counterexample to C10 as stated: override `c` is set and exists (content
`[1]`), but a metadata sidecar sits beside it with timestamp 0 while the
release endpoint reports a matching asset with timestamp 5.  The manual
update command skips its own download, yet the restart it triggers runs the
update check on the override path, prompts, and — the user accepting — 
downloads over the override binary: afterwards `c` holds `[9, 9]`, so a file
on disk was modified by the command. -/
theorem C10_counterexample :
    fsLookup (updateLSP overrideUpdateEnv overrideUpdateWorld).1.fs "c" = some (.bin [9, 9])
    ∧ fsLookup overrideUpdateWorld.fs "c" = some (.bin [1])
    ∧ Ev.infoMsg skipCustomMsg ∈ (updateLSP overrideUpdateEnv overrideUpdateWorld).2 := by
  refine ⟨by decide, by decide, by decide⟩

/-- Claim C10, amended (corrected): when the override is set to an existing
file with no metadata sidecar beside it (so the restart's own update check
cannot trigger a download), the manual-update command performs no download
and modifies no file on disk: it stops a running client, reports the update
as skipped, and restarts with the unchanged override binary.  Without that
proviso the claim fails — see the counterexample. -/
theorem C10_custom_update_skip (env : Env) (w : World) (c name : String)
    (hname : getServerBinaryName env.platform env.arch = some name)
    (hcustom : w.customBinaryPath = some c) (hc : c ≠ "")
    (hex : existsSync w.fs c = true)
    (hmeta : readMetadata w.fs c = none) :
    (updateLSP env w).1.fs = w.fs
    ∧ (updateLSP env w).1.client = .running env.newPid
    ∧ (updateLSP env w).2 =
        [.infoMsg skipCustomMsg, .infoMsg restartingMsg, .spawn c env.newPid] := by
  have hsu : shouldUpdate w.fs env.releaseResp c name = false :=
    shouldUpdate_of_no_metadata w.fs env.releaseResp c name hmeta
  unfold updateLSP startClient
  rw [hname]
  simp [mkdirIfMissing_fs, mkdirIfMissing_client, mkdirIfMissing_customBinaryPath,
        hcustom, hc, hex, hsu, isRunning_stopIfRunning, resolveServerPath]

/-- Witness for C10 (amended): override `c` exists with no sidecar; the
command leaves the filesystem untouched, restarts with the override and
reports the skip. -/
theorem C10_witness :
    (updateLSP ⟨.linux, .x64, "s", false, false, .networkError, .networkError, .reqError, 4⟩
        ⟨[("c", .bin [1])], [], some "c", .running 3⟩).1.fs = [("c", .bin [1])]
    ∧ (updateLSP ⟨.linux, .x64, "s", false, false, .networkError, .networkError, .reqError, 4⟩
        ⟨[("c", .bin [1])], [], some "c", .running 3⟩).1.client = .running 4
    ∧ (updateLSP ⟨.linux, .x64, "s", false, false, .networkError, .networkError, .reqError, 4⟩
        ⟨[("c", .bin [1])], [], some "c", .running 3⟩).2 =
        [.infoMsg skipCustomMsg, .infoMsg restartingMsg, .spawn "c" 4] :=
  C10_custom_update_skip
    ⟨.linux, .x64, "s", false, false, .networkError, .networkError, .reqError, 4⟩
    ⟨[("c", .bin [1])], [], some "c", .running 3⟩ "c" "forgevsc-linux-x86_64"
    rfl rfl (by decide) rfl rfl
